import Mathlib

/-!
Verification of the multi-tenant access-control core (workspace/division
scope resolution, invitation workflow, role and member management) against
its specification.  The definitions below are a shallow embedding of the
TypeScript sources: document stores are lists of records, `findOne` is
`List.find?`, `deleteOne`/`findOneAndDelete` remove the first matching
record, `findOneAndUpdate` updates the first matching record, and the
mongoose pre-save hook that deduplicates role arrays is the explicit
`jsDedup` (first-occurrence-keeping, as `[...new Set(xs)]`).  Thrown
`Errors.*` values become `Except.error` with an `ErrKind`; a runtime
TypeError (reading a field of `undefined`) surfaces as `ErrKind.internal`.
-/

/-- Error taxonomy of `error/customErrors.ts`; `internal` stands for an
uncaught runtime exception (generic 500). -/
inductive ErrKind where
  | notFound
  | badRequest
  | forbidden
  | unauthorized
  | conflict
  | internal
deriving DecidableEq

/-- An embedded role document (`{ _id, name, permissions }`) as stored in a
tenant's role array. -/
structure RoleDoc where
  rid : String
  name : String
  permissions : List String
deriving DecidableEq

/-- Workspace document (`workspaceModel`), restricted to the fields the
verified operations read. -/
structure WorkspaceDoc where
  wid : String
  workspaceRoles : List RoleDoc
deriving DecidableEq

/-- Division document (`divisionModel`): `workspace` is the owning
workspace id. -/
structure DivisionDoc where
  did : String
  workspace : String
  divisionRoles : List RoleDoc
deriving DecidableEq

/-- Workspace membership document (`membershipModel`). -/
structure MembershipDoc where
  user : String
  workspace : String
  workspaceRoles : List String
  status : String
  invitedBy : Option String
deriving DecidableEq

/-- Division membership document (`divisionMembershipModel`). -/
structure DivMembershipDoc where
  user : String
  workspace : String
  division : String
  divisionRoles : List String
  status : String
deriving DecidableEq

/-- User document, restricted to what the invite service reads. -/
structure UserDoc where
  uid : String
  email : String
deriving DecidableEq

/-- Invitation document (`inviteModel`). `user` is the resolved actor id
(null when the e-mail matched no account); `expiresAt` is a timestamp. -/
structure InviteDoc where
  user : Option String
  email : String
  role : String
  invitedBy : String
  status : String
  token : String
  workspace : String
  expiresAt : Int
deriving DecidableEq

/-- `[...new Set(xs)]`: deduplicate keeping the first occurrence, as the
mongoose pre-save hooks do on role arrays. -/
def jsDedupAux (seen : List String) : List String → List String
  | [] => []
  | x :: xs =>
    if seen.contains x then jsDedupAux seen xs
    else x :: jsDedupAux (x :: seen) xs

/-- Entry point of the deduplication hook. -/
def jsDedup (xs : List String) : List String := jsDedupAux [] xs

/-- `findOneAndUpdate`: rewrite the first record matching `p` with `f`. -/
def updateFirst (p : α → Bool) (f : α → α) : List α → List α
  | [] => []
  | x :: xs => if p x then f x :: xs else x :: updateFirst p f xs

/-- Scope context attached to the request on success of `workspaceScope`
(`req.membership`). -/
structure WsScopeCtx where
  user : String
  workspace : String
  workspaceRoles : List String
deriving DecidableEq

/-- Scope context attached on success of `divisionScope`
(`req.divMembership`). -/
structure DivScopeCtx where
  user : String
  division : String
  divisionRoles : List String
deriving DecidableEq

/-- `workspaceScope` middleware (middlewares/auth/workspaceScope):
workspace lookup, superuser (`ostad`) override, membership check, then
role validation `some(r => allowed.includes(r) || roles.includes('admin'))`.
The stores are passed as lookup functions. -/
def workspaceScope (allowedRoles : List String) (userId role workspaceId : String)
    (findWorkspace : String → Option WorkspaceDoc)
    (findMembership : String → String → Option MembershipDoc) :
    Except ErrKind WsScopeCtx :=
  match findWorkspace workspaceId with
  | none => .error .notFound
  | some workspace =>
    if role == "ostad" then
      .ok { user := userId, workspace := workspaceId,
            workspaceRoles := workspace.workspaceRoles.map RoleDoc.name }
    else
      match findMembership userId workspaceId with
      | none => .error .forbidden
      | some membership =>
        if membership.status != "active" then .error .forbidden
        else if allowedRoles.length > 0 &&
            !(membership.workspaceRoles.any (fun r =>
                allowedRoles.contains r || membership.workspaceRoles.contains "admin")) then
          .error .forbidden
        else
          .ok { user := userId, workspace := workspaceId,
                workspaceRoles := membership.workspaceRoles }

/-- `divisionScope` middleware (middlewares/auth/divisionScope.ts):
context-consistency check against the enclosing workspace scope
(`userId !== req.membership.user`), division lookup, owning-workspace
guard, `ostad` override, division-membership check, role validation (note:
the code tests `divisionRoles.includes('admin')`, not `'division_admin'`). -/
def divisionScope (allowedRoles : List String) (userId role ctxUser workspaceId divisionId : String)
    (findDivision : String → Option DivisionDoc)
    (findDivMembership : String → String → Option DivMembershipDoc) :
    Except ErrKind DivScopeCtx :=
  if userId != ctxUser then .error .unauthorized
  else
    match findDivision divisionId with
    | none => .error .notFound
    | some division =>
      if division.workspace != workspaceId then .error .badRequest
      else if role == "ostad" then
        .ok { user := userId, division := divisionId,
              divisionRoles := division.divisionRoles.map RoleDoc.name }
      else
        match findDivMembership userId divisionId with
        | none => .error .forbidden
        | some membership =>
          if membership.status != "active" then .error .forbidden
          else if allowedRoles.length > 0 &&
              !(membership.divisionRoles.any (fun r =>
                  allowedRoles.contains r || membership.divisionRoles.contains "admin")) then
            .error .forbidden
          else
            .ok { user := userId, division := divisionId,
                  divisionRoles := membership.divisionRoles }

/-- `Math.max(Number(q.page) || 1, 1)` — `none` models an absent or
non-numeric query value (`Number` gives `NaN`, which is falsy). -/
def numberOr (q : Option Int) (fallback : Int) : Int :=
  match q with
  | none => fallback
  | some v => if v == 0 then fallback else v

/-- Effective page computed by the list controllers. -/
def effectivePage (q : Option Int) : Int := max (numberOr q 1) 1

/-- Effective limit computed by the list controllers:
`Math.min(Number(q.limit) || 20, 100)` — note there is no lower clamp. -/
def effectiveLimit (q : Option Int) : Int := min (numberOr q 20) 100

/-- Store state consumed by the invitation workflow: the `User`,
`Membership` and `Invite` collections. -/
structure InviteDB where
  users : List UserDoc
  memberships : List MembershipDoc
  invites : List InviteDoc
deriving DecidableEq

/-- Predicate matching the invite of a given (email, workspace) pair. -/
def inviteKey (email workspaceId : String) (i : InviteDoc) : Bool :=
  i.email == email && i.workspace == workspaceId

/-- The supersede step of `sendWorkspaceInvite`: find the previous invite
for (email, workspace) and `deleteOne` it if present. -/
def deleteExistingInvite (email workspaceId : String) (invites : List InviteDoc) :
    List InviteDoc :=
  match invites.find? (inviteKey email workspaceId) with
  | some _ => invites.eraseP (inviteKey email workspaceId)
  | none => invites

/-- `sendWorkspaceInvite` (invite.service): block when the e-mail resolves
to an existing user who has *any* membership record on the workspace,
delete the previous invite for (email, workspace) if one exists, then
create the new invite with the hard-coded role `'user'`, a caller-supplied
fresh `token`, `expiresAt = now + ttl`, and status `sent`/`pending`
according to whether the user exists. -/
def sendWorkspaceInvite (email userId workspaceId token : String) (now ttl : Int)
    (db : InviteDB) : Except ErrKind (InviteDB × InviteDoc) :=
  let existingUser := db.users.find? (fun u => u.email == email)
  let blocked : Bool :=
    match existingUser with
    | some u =>
      (db.memberships.find? (fun m => m.user == u.uid && m.workspace == workspaceId)).isSome
    | none => false
  if blocked then .error .badRequest
  else
    let remaining := deleteExistingInvite email workspaceId db.invites
    let invite : InviteDoc :=
      { user := existingUser.map UserDoc.uid, email := email, role := "user",
        invitedBy := userId,
        status := if existingUser.isSome then "sent" else "pending",
        token := token, workspace := workspaceId, expiresAt := now + ttl }
    .ok ({ db with invites := remaining ++ [invite] }, invite)

/-- `acceptWorkspaceInvite` (invite.service): all precondition failures are
`BadRequestError`; on success a `Membership` is created (pre-save hook
deduplicates its role array) and the invite's status is saved as
`accepted`. -/
def acceptWorkspaceInvite (token userId : String) (now : Int) (db : InviteDB) :
    Except ErrKind (InviteDB × InviteDoc) :=
  match db.invites.find? (fun i => i.token == token) with
  | none => .error .badRequest
  | some invite =>
    if invite.user != some userId then .error .badRequest
    else if invite.expiresAt < now then .error .badRequest
    else if invite.status != "sent" && invite.status != "pending" then .error .badRequest
    else
      let newMembership : MembershipDoc :=
        { user := userId, workspace := invite.workspace,
          workspaceRoles := jsDedup [invite.role], status := "active",
          invitedBy := some invite.invitedBy }
      .ok ({ db with
               memberships := db.memberships ++ [newMembership],
               invites := updateFirst (fun i => i.token == token)
                 (fun i => { i with status := "accepted" }) db.invites },
           { invite with status := "accepted" })

/-- `declineWorkspaceInvite` (invite.service): same preconditions as
accept, no membership creation, status saved as `declined`. -/
def declineWorkspaceInvite (token userId : String) (now : Int) (db : InviteDB) :
    Except ErrKind (InviteDB × InviteDoc) :=
  match db.invites.find? (fun i => i.token == token) with
  | none => .error .badRequest
  | some invite =>
    if invite.user != some userId then .error .badRequest
    else if invite.expiresAt < now then .error .badRequest
    else if invite.status != "sent" && invite.status != "pending" then .error .badRequest
    else
      .ok ({ db with
               invites := updateFirst (fun i => i.token == token)
                 (fun i => { i with status := "declined" }) db.invites },
           { invite with status := "declined" })

/-- Store state for the workspace role service: `Workspace` and
`Membership` collections. -/
structure RoleDB where
  workspaces : List WorkspaceDoc
  memberships : List MembershipDoc
deriving DecidableEq

/-- `assignRoleToUser` (workspace roles.service).  The source filters the
role array by `_id`; the subsequent `if (!role)` tests the *array*, which
is always truthy, so a missing role reaches `role[0].name` and raises a
TypeError — modelled as `ErrKind.internal`.  The membership update goes
through `$addToSet`, which silently skips an already-present role name. -/
def assignRoleToUser (userId roleId workspaceId : String) (db : RoleDB) :
    Except ErrKind RoleDB :=
  match db.workspaces.find? (fun w => w.wid == workspaceId) with
  | none => .error .notFound
  | some workspace =>
    match workspace.workspaceRoles.filter (fun r => r.rid == roleId) with
    | [] => .error .internal
    | r0 :: _ =>
      match db.memberships.find? (fun m => m.user == userId && m.workspace == workspaceId) with
      | none => .error .notFound
      | some _ =>
        let addToSet := fun (m : MembershipDoc) =>
          if m.workspaceRoles.contains r0.name then m
          else { m with workspaceRoles := m.workspaceRoles ++ [r0.name] }
        let updated := updateFirst (fun m => m.user == userId && m.workspace == workspaceId)
          addToSet db.memberships
        .ok { db with memberships := updated }

/-- Store state for the division role service: `Division` and
`DivisionMembership` collections. -/
structure DivRoleDB where
  divisions : List DivisionDoc
  divMemberships : List DivMembershipDoc
deriving DecidableEq

/-- `assignRoleToUser` (division division.role.service): explicit
`BadRequest` on an unknown role id and on a role already assigned; on
success the role name is pushed and the save hook deduplicates. -/
def divisionAssignRoleToUser (roleId userId divisionId workspaceId : String)
    (db : DivRoleDB) : Except ErrKind DivRoleDB :=
  match db.divMemberships.find? (fun m =>
      m.user == userId && m.workspace == workspaceId && m.division == divisionId) with
  | none => .error .notFound
  | some membership =>
    match db.divisions.find? (fun d => d.did == divisionId) with
    | none => .error .notFound
    | some division =>
      match division.divisionRoles.find? (fun r => r.rid == roleId) with
      | none => .error .badRequest
      | some role =>
        if membership.divisionRoles.any (fun r => r == role.name) then .error .badRequest
        else
          let pushAndSave := fun (m : DivMembershipDoc) =>
            { m with divisionRoles := jsDedup (m.divisionRoles ++ [role.name]) }
          let updated := updateFirst (fun m =>
              m.user == userId && m.workspace == workspaceId && m.division == divisionId)
            pushAndSave db.divMemberships
          .ok { db with divMemberships := updated }

/-- Predicate matching the membership of (workspace, member). -/
def memberKey (workspaceId memberId : String) (m : MembershipDoc) : Bool :=
  m.workspace == workspaceId && m.user == memberId

/-- `removeWorkspaceMember` (members.service): self-removal is rejected
with `BadRequest` before any lookup; a missing membership raises
`BadRequestError('Member does not exist.')`; otherwise
`findOneAndDelete` removes the record. -/
def removeWorkspaceMember (userId workspaceId memberId : String)
    (memberships : List MembershipDoc) : Except ErrKind (List MembershipDoc) :=
  if userId == memberId then .error .badRequest
  else
    match memberships.find? (memberKey workspaceId memberId) with
    | none => .error .badRequest
    | some _ => .ok (memberships.eraseP (memberKey workspaceId memberId))

/-! ### Helper lemmas about the store combinators -/

theorem filter_eraseP_eq_tail (p : α → Bool) (l : List α) :
    (l.eraseP p).filter p = (l.filter p).tail := by
  induction l with
  | nil => rfl
  | cons a t ih =>
    by_cases hp : p a
    · simp [List.eraseP_cons, hp]
    · simp [List.eraseP_cons, hp, List.filter_cons, ih]

theorem deleteExistingInvite_eq_eraseP (email workspaceId : String) (l : List InviteDoc) :
    deleteExistingInvite email workspaceId l = l.eraseP (inviteKey email workspaceId) := by
  unfold deleteExistingInvite
  cases hfind : l.find? (inviteKey email workspaceId) with
  | some a => rfl
  | none =>
    have hall : ∀ a ∈ l, ¬ inviteKey email workspaceId a := by
      intro a ha
      exact (List.find?_eq_none.mp hfind) a ha
    simp [List.eraseP_of_forall_not hall]

theorem find?_updateFirst (p : α → Bool) (f : α → α)
    (hf : ∀ a, p a = true → p (f a) = true) (l : List α) :
    (updateFirst p f l).find? p = (l.find? p).map f := by
  induction l with
  | nil => rfl
  | cons a t ih =>
    by_cases hp : p a
    · simp [updateFirst, hp, List.find?_cons_of_pos, hf a hp]
    · simp [updateFirst, hp, List.find?_cons_of_neg, ih]

theorem updateFirst_eq_of_fix (p : α → Bool) (f : α → α) (l : List α)
    (hfix : ∀ a, l.find? p = some a → f a = a) : updateFirst p f l = l := by
  induction l with
  | nil => rfl
  | cons a t ih =>
    by_cases hp : p a
    · have := hfix a (by simp [List.find?_cons_of_pos, hp])
      simp [updateFirst, hp, this]
    · have : ∀ b, t.find? p = some b → f b = b := by
        intro b hb
        exact hfix b (by simp [List.find?_cons_of_neg, hp, hb])
      simp [updateFirst, hp, ih this]

theorem find?_append_singleton (p : α → Bool) (l : List α) (a : α)
    (h : ∀ x ∈ l, p x = false) (ha : p a = true) :
    (l ++ [a]).find? p = some a := by
  induction l with
  | nil => simp [List.find?_cons_of_pos, ha]
  | cons x t ih =>
    have hx : ¬ p x := by simp [h x (List.mem_cons_self x t)]
    simp only [List.cons_append]
    rw [List.find?_cons_of_neg _ hx]
    exact ih (fun y hy => h y (List.mem_cons_of_mem x hy))

theorem tail_eq_nil_of_length_le_one (l : List α) (h : l.length ≤ 1) : l.tail = [] := by
  cases l with
  | nil => rfl
  | cons a t =>
    cases t with
    | nil => rfl
    | cons b u => simp at h

/-! ### C9 — pagination clamping -/

/-- C9 counterexample: the claim says a negative `limit` input yields an
effective limit within `[1,100]`, but the controllers only apply
`Math.min(Number(limit) || 20, 100)`: the input `-5` passes through
unclamped, giving effective limit `-5 < 1`. -/
theorem pagination_negative_limit_counterexample :
    effectiveLimit (some (-5)) = -5 ∧ effectiveLimit (some (-5)) < 1 := by
  constructor <;> decide

/-- C9 (amended): a `limit` input of `0` or greater than `100` yields an
effective limit within `[1,100]` (`0` falls back to the default `20`,
larger values are clamped to `100`), but a *negative* limit input is
passed through unchanged; a `page` input of `0` or negative yields an
effective page of `1`. -/
theorem pagination_clamping_amended (l p : Int) :
    (l = 0 ∨ 100 < l → 1 ≤ effectiveLimit (some l) ∧ effectiveLimit (some l) ≤ 100) ∧
    (l < 0 → effectiveLimit (some l) = l) ∧
    (p ≤ 0 → effectivePage (some p) = 1) := by
  simp only [effectiveLimit, effectivePage, numberOr, beq_iff_eq]
  refine ⟨?_, ?_, ?_⟩ <;> intro h
  · rcases h with h | h
    · simp [h]
    · rw [if_neg (by omega)]
      constructor
      · rw [le_min_iff]
        omega
      · exact min_le_right l 100
  · rw [if_neg (by omega)]
    omega
  · by_cases hp : p = 0
    · simp [hp]
    · rw [if_neg hp]
      omega

/-- C9 witness: instantiates the amended pagination theorem at the inputs
`limit = 101` and `page = 0`. -/
theorem pagination_clamping_amended_witness :
    (1 ≤ effectiveLimit (some 101) ∧ effectiveLimit (some 101) ≤ 100) ∧
    effectivePage (some 0) = 1 := by
  obtain ⟨h1, _, h3⟩ := pagination_clamping_amended 101 0
  exact ⟨h1 (Or.inr (by norm_num)), h3 (by norm_num)⟩

/-! ### C1 — superuser override -/

/-- C1: when the actor's global super-role is the platform superuser tier
`'ostad'` and the tenant exists, both scope middlewares succeed with the
attached effective roles equal to the list of all role names defined on
the tenant.  The membership stores `findMembership` / `findDivMembership`
are universally quantified, so the outcome is independent of any
`Membership` record — no membership lookup influences the result.  (For
the division half the request path names the division's own workspace,
the well-formed addressing of that tenant.) -/
theorem superuser_override_resolves_all_roles
    (allowedW allowedD : List String) (userId workspaceId divisionId : String)
    (findWorkspace : String → Option WorkspaceDoc)
    (findMembership : String → String → Option MembershipDoc)
    (findDivision : String → Option DivisionDoc)
    (findDivMembership : String → String → Option DivMembershipDoc)
    (ws : WorkspaceDoc) (d : DivisionDoc)
    (hws : findWorkspace workspaceId = some ws)
    (hd : findDivision divisionId = some d)
    (howner : d.workspace = workspaceId) :
    workspaceScope allowedW userId "ostad" workspaceId findWorkspace findMembership =
      .ok ⟨userId, workspaceId, ws.workspaceRoles.map RoleDoc.name⟩ ∧
    divisionScope allowedD userId "ostad" userId workspaceId divisionId
        findDivision findDivMembership =
      .ok ⟨userId, divisionId, d.divisionRoles.map RoleDoc.name⟩ := by
  constructor
  · simp [workspaceScope, hws]
  · simp [divisionScope, hd, howner]

/-- C1 witness: a concrete `ostad` actor, workspace and division, with a
membership store that holds no record at all. -/
theorem superuser_override_resolves_all_roles_witness :
    workspaceScope ["manager"] "u1" "ostad" "w1"
        (fun _ => some ⟨"w1", [⟨"r1", "admin", ["*"]⟩, ⟨"r2", "user", []⟩]⟩)
        (fun _ _ => none) =
      .ok ⟨"u1", "w1", ["admin", "user"]⟩ ∧
    divisionScope ["division_member"] "u1" "ostad" "u1" "w1" "d1"
        (fun _ => some ⟨"d1", "w1", [⟨"r3", "division_admin", []⟩]⟩)
        (fun _ _ => none) =
      .ok ⟨"u1", "d1", ["division_admin"]⟩ :=
  superuser_override_resolves_all_roles ["manager"] ["division_member"] "u1" "w1" "d1"
    (fun _ => some ⟨"w1", [⟨"r1", "admin", ["*"]⟩, ⟨"r2", "user", []⟩]⟩) (fun _ _ => none)
    (fun _ => some ⟨"d1", "w1", [⟨"r3", "division_admin", []⟩]⟩) (fun _ _ => none)
    ⟨"w1", [⟨"r1", "admin", ["*"]⟩, ⟨"r2", "user", []⟩]⟩
    ⟨"d1", "w1", [⟨"r3", "division_admin", []⟩]⟩ rfl rfl rfl

/-! ### C3 — division cross-tenant guard -/

/-- C3: when the division exists but its owning workspace differs from the
workspace id in the request path, `divisionScope` fails `BadRequest`.
The super-role and the division-membership store are universally
quantified: the guard fires even for `'ostad'` and regardless of any
membership record, i.e. before the superuser override and before the
membership lookup. -/
theorem division_cross_tenant_guard
    (allowed : List String) (userId role workspaceId divisionId : String)
    (findDivision : String → Option DivisionDoc)
    (findDivMembership : String → String → Option DivMembershipDoc)
    (d : DivisionDoc)
    (hd : findDivision divisionId = some d)
    (hmismatch : d.workspace ≠ workspaceId) :
    divisionScope allowed userId role userId workspaceId divisionId
        findDivision findDivMembership = .error .badRequest := by
  simp [divisionScope, hd, hmismatch]

/-- C3 witness: a division owned by `w2` addressed under the path of
`w1`, attempted by an `ostad` actor with an active membership on file. -/
theorem division_cross_tenant_guard_witness :
    divisionScope ["division_admin"] "u1" "ostad" "u1" "w1" "d1"
        (fun _ => some ⟨"d1", "w2", [⟨"r1", "division_admin", []⟩]⟩)
        (fun _ _ => some ⟨"u1", "w2", "d1", ["division_admin"], "active"⟩) =
      .error .badRequest :=
  division_cross_tenant_guard ["division_admin"] "u1" "ostad" "w1" "d1"
    (fun _ => some ⟨"d1", "w2", [⟨"r1", "division_admin", []⟩]⟩)
    (fun _ _ => some ⟨"u1", "w2", "d1", ["division_admin"], "active"⟩)
    ⟨"d1", "w2", [⟨"r1", "division_admin", []⟩]⟩ rfl (by decide)

/-! ### C2 — top-role local super-role -/

theorem scope_role_check_iff (allowed roles : List String) :
    (roles.any (fun r => allowed.contains r || roles.contains "admin") = true) ↔
      ((∃ r, r ∈ roles ∧ r ∈ allowed) ∨ "admin" ∈ roles) := by
  simp only [List.any_eq_true, Bool.or_eq_true, List.elem_iff]
  constructor
  · rintro ⟨r, hr, h | h⟩
    · exact Or.inl ⟨r, hr, h⟩
    · exact Or.inr h
  · rintro (⟨r, hr, h⟩ | h)
    · exact ⟨r, hr, Or.inl h⟩
    · exact ⟨"admin", h, Or.inr h⟩

theorem workspaceScope_role_validation
    (allowed : List String) (userId role workspaceId : String)
    (fw : String → Option WorkspaceDoc) (fm : String → String → Option MembershipDoc)
    (ws : WorkspaceDoc) (m : MembershipDoc)
    (hrole : role ≠ "ostad") (hws : fw workspaceId = some ws)
    (hm : fm userId workspaceId = some m) (hmact : m.status = "active")
    (hne : allowed ≠ []) :
    workspaceScope allowed userId role workspaceId fw fm =
      (if m.workspaceRoles.any (fun r =>
            allowed.contains r || m.workspaceRoles.contains "admin") then
         Except.ok ⟨userId, workspaceId, m.workspaceRoles⟩
       else Except.error ErrKind.forbidden) := by
  have hlen : 0 < allowed.length := List.length_pos.mpr hne
  simp only [workspaceScope, hws, hm]
  rw [if_neg (by simp [hrole]), if_neg (by simp [hmact]), decide_eq_true hlen, Bool.true_and]
  by_cases hany : m.workspaceRoles.any (fun r =>
      allowed.contains r || m.workspaceRoles.contains "admin") = true
  · rw [hany]
    simp
  · have hany' : m.workspaceRoles.any (fun r =>
        allowed.contains r || m.workspaceRoles.contains "admin") = false := by
      simpa using hany
    rw [hany']
    simp

theorem divisionScope_role_validation
    (allowed : List String) (userId role workspaceId divisionId : String)
    (fd : String → Option DivisionDoc) (fdm : String → String → Option DivMembershipDoc)
    (d : DivisionDoc) (dm : DivMembershipDoc)
    (hrole : role ≠ "ostad") (hd : fd divisionId = some d)
    (howner : d.workspace = workspaceId)
    (hdm : fdm userId divisionId = some dm) (hdmact : dm.status = "active")
    (hne : allowed ≠ []) :
    divisionScope allowed userId role userId workspaceId divisionId fd fdm =
      (if dm.divisionRoles.any (fun r =>
            allowed.contains r || dm.divisionRoles.contains "admin") then
         Except.ok ⟨userId, divisionId, dm.divisionRoles⟩
       else Except.error ErrKind.forbidden) := by
  have hlen : 0 < allowed.length := List.length_pos.mpr hne
  simp only [divisionScope, hd, hdm, howner, bne_self_eq_false, Bool.false_eq_true, if_false,
    reduceIte]
  rw [if_neg (by simp [hrole]), if_neg (by simp [hdmact]), decide_eq_true hlen, Bool.true_and]
  by_cases hany : dm.divisionRoles.any (fun r =>
      allowed.contains r || dm.divisionRoles.contains "admin") = true
  · rw [hany]
    simp
  · have hany' : dm.divisionRoles.any (fun r =>
        allowed.contains r || dm.divisionRoles.contains "admin") = false := by
      simpa using hany
    rw [hany']
    simp

theorem ite_ok_exists_iff {β : Type} (b : Bool) (c : β) (e : ErrKind) :
    (∃ x, (if b = true then (Except.ok c : Except ErrKind β) else .error e) = .ok x) ↔
      b = true := by
  cases b <;> simp

theorem ite_err_of_ne {β : Type} (b : Bool) (c : β) (e : ErrKind) (h : ¬ b = true) :
    (if b = true then (Except.ok c : Except ErrKind β) else .error e) = .error e := by
  simp [h]

/-- C2 counterexample: a non-superuser actor whose *division* membership is
active and holds exactly the division's designated top role
`'division_admin'`, with a non-empty required-role set that it does not
intersect.  The claim predicts success (top role acts as local
super-role), but `divisionScope` tests `divisionRoles.includes('admin')`
— not `'division_admin'` — and fails `Forbidden`. -/
theorem division_top_role_counterexample :
    divisionScope ["staffrole"] "u1" "user" "u1" "w1" "d1"
        (fun _ => some ⟨"d1", "w1",
          [⟨"r1", "division_admin", []⟩, ⟨"r2", "division_member", []⟩]⟩)
        (fun _ _ => some ⟨"u1", "w1", "d1", ["division_admin"], "active"⟩) =
      .error .forbidden ∧
    "division_admin" ∈ (["division_admin"] : List String) ∧
    ¬ ∃ r, r ∈ (["division_admin"] : List String) ∧ r ∈ (["staffrole"] : List String) := by
  refine ⟨rfl, by decide, by decide⟩

/-- C2 (amended): for a non-superuser actor with an active membership and
a non-empty required-role set, scope resolution succeeds iff the
membership's role set intersects the required roles or contains the
literal role name `'admin'` — for the workspace scope **and** for the
division scope alike (the division check also tests `'admin'`, not
`'division_admin'`); otherwise it fails `Forbidden`. -/
theorem top_role_admin_amended
    (allowedW allowedD : List String) (userId role workspaceId divisionId : String)
    (fw : String → Option WorkspaceDoc) (fm : String → String → Option MembershipDoc)
    (fd : String → Option DivisionDoc) (fdm : String → String → Option DivMembershipDoc)
    (ws : WorkspaceDoc) (m : MembershipDoc) (d : DivisionDoc) (dm : DivMembershipDoc)
    (hrole : role ≠ "ostad")
    (hws : fw workspaceId = some ws) (hm : fm userId workspaceId = some m)
    (hmact : m.status = "active") (hWne : allowedW ≠ [])
    (hd : fd divisionId = some d) (howner : d.workspace = workspaceId)
    (hdm : fdm userId divisionId = some dm) (hdmact : dm.status = "active")
    (hDne : allowedD ≠ []) :
    ((∃ c, workspaceScope allowedW userId role workspaceId fw fm = .ok c) ↔
        (∃ r, r ∈ m.workspaceRoles ∧ r ∈ allowedW) ∨ "admin" ∈ m.workspaceRoles) ∧
    (¬ ((∃ r, r ∈ m.workspaceRoles ∧ r ∈ allowedW) ∨ "admin" ∈ m.workspaceRoles) →
        workspaceScope allowedW userId role workspaceId fw fm = .error .forbidden) ∧
    ((∃ c, divisionScope allowedD userId role userId workspaceId divisionId fd fdm = .ok c) ↔
        (∃ r, r ∈ dm.divisionRoles ∧ r ∈ allowedD) ∨ "admin" ∈ dm.divisionRoles) ∧
    (¬ ((∃ r, r ∈ dm.divisionRoles ∧ r ∈ allowedD) ∨ "admin" ∈ dm.divisionRoles) →
        divisionScope allowedD userId role userId workspaceId divisionId fd fdm =
          .error .forbidden) := by
  have hw := workspaceScope_role_validation allowedW userId role workspaceId fw fm ws m
    hrole hws hm hmact hWne
  have hdv := divisionScope_role_validation allowedD userId role workspaceId divisionId fd fdm
    d dm hrole hd howner hdm hdmact hDne
  refine ⟨?_, ?_, ?_, ?_⟩
  · rw [hw, ite_ok_exists_iff]
    exact scope_role_check_iff allowedW m.workspaceRoles
  · intro hnot
    rw [hw]
    exact ite_err_of_ne _ _ _ (fun hA => hnot ((scope_role_check_iff _ _).mp hA))
  · rw [hdv, ite_ok_exists_iff]
    exact scope_role_check_iff allowedD dm.divisionRoles
  · intro hnot
    rw [hdv]
    exact ite_err_of_ne _ _ _ (fun hA => hnot ((scope_role_check_iff _ _).mp hA))

/-- C2 witness: a workspace member whose `'manager'` role intersects the
required roles resolves successfully, while a division member holding
only `'division_member'` fails a `['staffrole']` requirement. -/
theorem top_role_admin_amended_witness :
    (∃ c, workspaceScope ["manager"] "u1" "user" "w1"
        (fun _ => some ⟨"w1", [⟨"r1", "admin", ["*"]⟩]⟩)
        (fun _ _ => some ⟨"u1", "w1", ["manager"], "active", none⟩) = Except.ok c) ∧
    divisionScope ["staffrole"] "u1" "user" "u1" "w1" "d1"
        (fun _ => some ⟨"d1", "w1", [⟨"r2", "division_admin", []⟩]⟩)
        (fun _ _ => some ⟨"u1", "w1", "d1", ["division_member"], "active"⟩) =
      .error .forbidden := by
  have h := top_role_admin_amended ["manager"] ["staffrole"] "u1" "user" "w1" "d1"
    (fun _ => some ⟨"w1", [⟨"r1", "admin", ["*"]⟩]⟩)
    (fun _ _ => some ⟨"u1", "w1", ["manager"], "active", none⟩)
    (fun _ => some ⟨"d1", "w1", [⟨"r2", "division_admin", []⟩]⟩)
    (fun _ _ => some ⟨"u1", "w1", "d1", ["division_member"], "active"⟩)
    ⟨"w1", [⟨"r1", "admin", ["*"]⟩]⟩ ⟨"u1", "w1", ["manager"], "active", none⟩
    ⟨"d1", "w1", [⟨"r2", "division_admin", []⟩]⟩
    ⟨"u1", "w1", "d1", ["division_member"], "active"⟩
    (by decide) rfl rfl rfl (by decide) rfl rfl rfl rfl (by decide)
  exact ⟨h.1.mpr (Or.inl ⟨"manager", by decide, by decide⟩), h.2.2.2 (by decide)⟩

/-! ### Invitation workflow lemmas -/

theorem jsDedup_singleton (a : String) : jsDedup [a] = [a] := by
  simp [jsDedup, jsDedupAux]

theorem accept_badRequest_of_find_none (token uid : String) (now : Int) (db : InviteDB)
    (hfind : db.invites.find? (fun i => i.token == token) = none) :
    acceptWorkspaceInvite token uid now db = .error .badRequest := by
  simp [acceptWorkspaceInvite, hfind]

theorem accept_badRequest_of_user_mismatch (token uid : String) (now : Int) (db : InviteDB)
    (inv : InviteDoc) (hfind : db.invites.find? (fun i => i.token == token) = some inv)
    (hu : inv.user ≠ some uid) :
    acceptWorkspaceInvite token uid now db = .error .badRequest := by
  simp [acceptWorkspaceInvite, hfind, hu]

theorem accept_badRequest_of_expired (token uid : String) (now : Int) (db : InviteDB)
    (inv : InviteDoc) (hfind : db.invites.find? (fun i => i.token == token) = some inv)
    (hexp : inv.expiresAt < now) :
    acceptWorkspaceInvite token uid now db = .error .badRequest := by
  by_cases hu : inv.user = some uid
  · simp [acceptWorkspaceInvite, hfind, hu, hexp]
  · simp [acceptWorkspaceInvite, hfind, hu]

theorem accept_badRequest_of_terminal (token uid : String) (now : Int) (db : InviteDB)
    (inv : InviteDoc) (hfind : db.invites.find? (fun i => i.token == token) = some inv)
    (hs : inv.status ≠ "sent") (hp : inv.status ≠ "pending") :
    acceptWorkspaceInvite token uid now db = .error .badRequest := by
  by_cases hu : inv.user = some uid
  · by_cases hexp : inv.expiresAt < now
    · simp [acceptWorkspaceInvite, hfind, hu, hexp]
    · simp [acceptWorkspaceInvite, hfind, hu, hexp, hs, hp]
  · simp [acceptWorkspaceInvite, hfind, hu]

theorem accept_success_eq (token uid : String) (now : Int) (db : InviteDB)
    (inv : InviteDoc) (hfind : db.invites.find? (fun i => i.token == token) = some inv)
    (hu : inv.user = some uid) (hexp : ¬ inv.expiresAt < now)
    (hst : inv.status = "sent" ∨ inv.status = "pending") :
    acceptWorkspaceInvite token uid now db =
      .ok ({ users := db.users,
             memberships := db.memberships ++
               [⟨uid, inv.workspace, [inv.role], "active", some inv.invitedBy⟩],
             invites := updateFirst (fun i => i.token == token)
               (fun i => { i with status := "accepted" }) db.invites },
           { inv with status := "accepted" }) := by
  rcases hst with h | h <;>
    simp [acceptWorkspaceInvite, hfind, hu, hexp, h, jsDedup_singleton]

theorem decline_badRequest_of_terminal (token uid : String) (now : Int) (db : InviteDB)
    (inv : InviteDoc) (hfind : db.invites.find? (fun i => i.token == token) = some inv)
    (hs : inv.status ≠ "sent") (hp : inv.status ≠ "pending") :
    declineWorkspaceInvite token uid now db = .error .badRequest := by
  by_cases hu : inv.user = some uid
  · by_cases hexp : inv.expiresAt < now
    · simp [declineWorkspaceInvite, hfind, hu, hexp]
    · simp [declineWorkspaceInvite, hfind, hu, hexp, hs, hp]
  · simp [declineWorkspaceInvite, hfind, hu]

theorem accept_ok_characterization (token uid : String) (now : Int) (db db1 : InviteDB)
    (inv1 : InviteDoc) (h : acceptWorkspaceInvite token uid now db = .ok (db1, inv1)) :
    ∃ inv0, db.invites.find? (fun i => i.token == token) = some inv0 ∧
      inv1 = { inv0 with status := "accepted" } ∧
      db1 = { users := db.users,
              memberships := db.memberships ++
                [⟨uid, inv0.workspace, jsDedup [inv0.role], "active", some inv0.invitedBy⟩],
              invites := updateFirst (fun i => i.token == token)
                (fun i => { i with status := "accepted" }) db.invites } := by
  unfold acceptWorkspaceInvite at h
  cases hfind : db.invites.find? (fun i => i.token == token) with
  | none =>
    rw [hfind] at h
    exact Except.noConfusion h
  | some inv0 =>
    simp only [hfind] at h
    refine ⟨inv0, rfl, ?_⟩
    split_ifs at h
    all_goals first
      | exact Except.noConfusion h
      | · simp only [Except.ok.injEq, Prod.mk.injEq] at h
          exact ⟨h.2.symm, h.1.symm⟩

theorem decline_ok_characterization (token uid : String) (now : Int) (db db1 : InviteDB)
    (inv1 : InviteDoc) (h : declineWorkspaceInvite token uid now db = .ok (db1, inv1)) :
    ∃ inv0, db.invites.find? (fun i => i.token == token) = some inv0 ∧
      inv1 = { inv0 with status := "declined" } ∧
      db1 = { users := db.users, memberships := db.memberships,
              invites := updateFirst (fun i => i.token == token)
                (fun i => { i with status := "declined" }) db.invites } := by
  unfold declineWorkspaceInvite at h
  cases hfind : db.invites.find? (fun i => i.token == token) with
  | none =>
    rw [hfind] at h
    exact Except.noConfusion h
  | some inv0 =>
    simp only [hfind] at h
    refine ⟨inv0, rfl, ?_⟩
    split_ifs at h
    all_goals first
      | exact Except.noConfusion h
      | · simp only [Except.ok.injEq, Prod.mk.injEq] at h
          exact ⟨h.2.symm, h.1.symm⟩

/-! ### C4 — invitation accept contract -/

/-- C4: `acceptWorkspaceInvite(token, actorId)` fails `BadRequest` when no
invitation matches the token, when the invitation's resolved actor id
differs from the caller (a null resolved actor differs from every
caller), when the current time is past `expiresAt`, or when the status is
neither `'sent'` nor `'pending'`; when all preconditions hold it appends
a workspace membership `(actorId, invite.workspace)` with role set
`[invite.role]` and status `'active'`, and saves the invitation with
status `'accepted'`. -/
theorem accept_invite_contract (token userId : String) (now : Int) (db : InviteDB) :
    (db.invites.find? (fun i => i.token == token) = none →
       acceptWorkspaceInvite token userId now db = .error .badRequest) ∧
    (∀ inv, db.invites.find? (fun i => i.token == token) = some inv →
       inv.user ≠ some userId →
       acceptWorkspaceInvite token userId now db = .error .badRequest) ∧
    (∀ inv, db.invites.find? (fun i => i.token == token) = some inv →
       inv.expiresAt < now →
       acceptWorkspaceInvite token userId now db = .error .badRequest) ∧
    (∀ inv, db.invites.find? (fun i => i.token == token) = some inv →
       inv.status ≠ "sent" → inv.status ≠ "pending" →
       acceptWorkspaceInvite token userId now db = .error .badRequest) ∧
    (∀ inv, db.invites.find? (fun i => i.token == token) = some inv →
       inv.user = some userId → ¬ inv.expiresAt < now →
       (inv.status = "sent" ∨ inv.status = "pending") →
       acceptWorkspaceInvite token userId now db =
         .ok ({ users := db.users,
                memberships := db.memberships ++
                  [⟨userId, inv.workspace, [inv.role], "active", some inv.invitedBy⟩],
                invites := updateFirst (fun i => i.token == token)
                  (fun i => { i with status := "accepted" }) db.invites },
              { inv with status := "accepted" })) :=
  ⟨accept_badRequest_of_find_none token userId now db,
   fun inv hf hu => accept_badRequest_of_user_mismatch token userId now db inv hf hu,
   fun inv hf he => accept_badRequest_of_expired token userId now db inv hf he,
   fun inv hf hs hp => accept_badRequest_of_terminal token userId now db inv hf hs hp,
   fun inv hf hu he hst => accept_success_eq token userId now db inv hf hu he hst⟩

/-- C4 witness: a concrete `sent` invitation bound to actor `u1` is
accepted before expiry: the membership `(u1, w1)` with roles `['user']`
appears and the invite's status becomes `accepted`; the same token held
by a different actor `u2` fails `BadRequest`. -/
theorem accept_invite_contract_witness :
    acceptWorkspaceInvite "t" "u1" 5
        ⟨[⟨"u1", "bob@x.com"⟩], [],
         [⟨some "u1", "bob@x.com", "user", "u0", "sent", "t", "w1", 100⟩]⟩ =
      .ok (⟨[⟨"u1", "bob@x.com"⟩],
            [⟨"u1", "w1", ["user"], "active", some "u0"⟩],
            [⟨some "u1", "bob@x.com", "user", "u0", "accepted", "t", "w1", 100⟩]⟩,
           ⟨some "u1", "bob@x.com", "user", "u0", "accepted", "t", "w1", 100⟩) ∧
    acceptWorkspaceInvite "t" "u2" 5
        ⟨[⟨"u1", "bob@x.com"⟩], [],
         [⟨some "u1", "bob@x.com", "user", "u0", "sent", "t", "w1", 100⟩]⟩ =
      .error .badRequest := by
  constructor
  · exact (accept_invite_contract "t" "u1" 5
      ⟨[⟨"u1", "bob@x.com"⟩], [],
       [⟨some "u1", "bob@x.com", "user", "u0", "sent", "t", "w1", 100⟩]⟩).2.2.2.2
      ⟨some "u1", "bob@x.com", "user", "u0", "sent", "t", "w1", 100⟩
      rfl rfl (by decide) (Or.inl rfl)
  · exact (accept_invite_contract "t" "u2" 5
      ⟨[⟨"u1", "bob@x.com"⟩], [],
       [⟨some "u1", "bob@x.com", "user", "u0", "sent", "t", "w1", 100⟩]⟩).2.1
      ⟨some "u1", "bob@x.com", "user", "u0", "sent", "t", "w1", 100⟩
      rfl (by decide)

/-! ### C5 — invitation tokens are single-use -/

/-- C5: once an accept or a decline has succeeded on a token (the stored
invitation's status becomes the terminal `accepted`/`declined`), every
later accept or decline with the same token fails `BadRequest` — for any
caller and at any time.  A failing call raises before any save, so the
invitation's status is unchanged by it (in this embedding an `error`
result carries no new store state). -/
theorem invite_token_single_use (token uidA uidB uidC : String) (nowA nowB nowC : Int)
    (db db1 : InviteDB) (inv1 : InviteDoc) :
    (acceptWorkspaceInvite token uidA nowA db = .ok (db1, inv1) →
       acceptWorkspaceInvite token uidB nowB db1 = .error .badRequest ∧
       declineWorkspaceInvite token uidC nowC db1 = .error .badRequest) ∧
    (declineWorkspaceInvite token uidA nowA db = .ok (db1, inv1) →
       acceptWorkspaceInvite token uidB nowB db1 = .error .badRequest ∧
       declineWorkspaceInvite token uidC nowC db1 = .error .badRequest) := by
  constructor
  · intro h
    obtain ⟨inv0, hfind, hinv1, hdb1⟩ := accept_ok_characterization token uidA nowA db db1 inv1 h
    have hfind1 : db1.invites.find? (fun i => i.token == token) =
        some ({ inv0 with status := "accepted" }) := by
      simp only [hdb1]
      rw [find?_updateFirst (fun i => i.token == token)
        (fun i => { i with status := "accepted" }) (fun a ha => ha) db.invites, hfind]
      rfl
    have hs : ({ inv0 with status := "accepted" } : InviteDoc).status ≠ "sent" :=
      show ("accepted" : String) ≠ "sent" by decide
    have hp : ({ inv0 with status := "accepted" } : InviteDoc).status ≠ "pending" :=
      show ("accepted" : String) ≠ "pending" by decide
    exact ⟨accept_badRequest_of_terminal token uidB nowB db1 _ hfind1 hs hp,
           decline_badRequest_of_terminal token uidC nowC db1 _ hfind1 hs hp⟩
  · intro h
    obtain ⟨inv0, hfind, hinv1, hdb1⟩ :=
      decline_ok_characterization token uidA nowA db db1 inv1 h
    have hfind1 : db1.invites.find? (fun i => i.token == token) =
        some ({ inv0 with status := "declined" }) := by
      simp only [hdb1]
      rw [find?_updateFirst (fun i => i.token == token)
        (fun i => { i with status := "declined" }) (fun a ha => ha) db.invites, hfind]
      rfl
    have hs : ({ inv0 with status := "declined" } : InviteDoc).status ≠ "sent" :=
      show ("declined" : String) ≠ "sent" by decide
    have hp : ({ inv0 with status := "declined" } : InviteDoc).status ≠ "pending" :=
      show ("declined" : String) ≠ "pending" by decide
    exact ⟨accept_badRequest_of_terminal token uidB nowB db1 _ hfind1 hs hp,
           decline_badRequest_of_terminal token uidC nowC db1 _ hfind1 hs hp⟩

/-- C5 witness: after the concrete accept of token `t` by `u1`, a second
accept (by `u2`) and a decline (by `u3`) on the same token both fail
`BadRequest`. -/
theorem invite_token_single_use_witness :
    acceptWorkspaceInvite "t" "u2" 6
        ⟨[], [⟨"u1", "w1", ["user"], "active", some "u0"⟩],
         [⟨some "u1", "bob@x.com", "user", "u0", "accepted", "t", "w1", 100⟩]⟩ =
      .error .badRequest ∧
    declineWorkspaceInvite "t" "u3" 7
        ⟨[], [⟨"u1", "w1", ["user"], "active", some "u0"⟩],
         [⟨some "u1", "bob@x.com", "user", "u0", "accepted", "t", "w1", 100⟩]⟩ =
      .error .badRequest :=
  (invite_token_single_use "t" "u1" "u2" "u3" 5 6 7
    ⟨[], [], [⟨some "u1", "bob@x.com", "user", "u0", "sent", "t", "w1", 100⟩]⟩
    ⟨[], [⟨"u1", "w1", ["user"], "active", some "u0"⟩],
     [⟨some "u1", "bob@x.com", "user", "u0", "accepted", "t", "w1", 100⟩]⟩
    ⟨some "u1", "bob@x.com", "user", "u0", "accepted", "t", "w1", 100⟩).1 rfl

/-! ### C6 — invitation send contract -/

theorem send_blocked_badRequest (email userId workspaceId token : String) (now ttl : Int)
    (db : InviteDB) (u : UserDoc) (m : MembershipDoc)
    (hu : db.users.find? (fun x => x.email == email) = some u)
    (hm : db.memberships.find? (fun x => x.user == u.uid && x.workspace == workspaceId) =
      some m) :
    sendWorkspaceInvite email userId workspaceId token now ttl db = .error .badRequest := by
  simp [sendWorkspaceInvite, hu, hm]

theorem send_success_eq (email userId workspaceId token : String) (now ttl : Int)
    (db : InviteDB)
    (hclean : ∀ u, db.users.find? (fun x => x.email == email) = some u →
        db.memberships.find? (fun x => x.user == u.uid && x.workspace == workspaceId) = none) :
    sendWorkspaceInvite email userId workspaceId token now ttl db =
      .ok ({ users := db.users, memberships := db.memberships,
             invites := deleteExistingInvite email workspaceId db.invites ++
               [⟨(db.users.find? (fun x => x.email == email)).map UserDoc.uid, email, "user",
                 userId,
                 if (db.users.find? (fun x => x.email == email)).isSome then "sent"
                 else "pending",
                 token, workspaceId, now + ttl⟩] },
           ⟨(db.users.find? (fun x => x.email == email)).map UserDoc.uid, email, "user",
            userId,
            if (db.users.find? (fun x => x.email == email)).isSome then "sent" else "pending",
            token, workspaceId, now + ttl⟩) := by
  unfold sendWorkspaceInvite
  cases hu : db.users.find? (fun x => x.email == email) with
  | none => simp [hu]
  | some u => simp [hu, hclean u hu]

/-- C6 counterexample: the claim blocks the send only when the resolved
actor holds an *active* membership.  Here the sole membership of `u1` on
`w1` has status `'invited'` (not active), so the claim predicts a new
invitation is created; but the code checks bare membership existence and
fails `BadRequest`. -/
theorem send_nonactive_membership_counterexample :
    (∀ m ∈ ([⟨"u1", "w1", ["user"], "invited", none⟩] : List MembershipDoc),
       m.status ≠ "active") ∧
    sendWorkspaceInvite "bob@x.com" "u0" "w1" "tok" 0 1000
        ⟨[⟨"u1", "bob@x.com"⟩], [⟨"u1", "w1", ["user"], "invited", none⟩], []⟩ =
      .error .badRequest :=
  ⟨by decide, rfl⟩

/-- C6 (amended): `send` fails `BadRequest` when the email belongs to an
existing actor holding **any** membership record on the workspace
(regardless of status, not only active ones); otherwise it deletes the
prior invitation for (email, workspace) and creates exactly one new
invitation — status `'sent'` if the email resolved to an actor,
`'pending'` if not — with the fresh token and `expiresAt = now + ttl`, so
(given the at-most-one-prior-invite invariant) exactly one invitation per
(email, workspace) remains. -/
theorem send_invite_contract_amended (email userId workspaceId token : String)
    (now ttl : Int) (db : InviteDB) :
    (∀ u m, db.users.find? (fun x => x.email == email) = some u →
       db.memberships.find? (fun x => x.user == u.uid && x.workspace == workspaceId) =
         some m →
       sendWorkspaceInvite email userId workspaceId token now ttl db =
         .error .badRequest) ∧
    ((∀ u, db.users.find? (fun x => x.email == email) = some u →
        db.memberships.find? (fun x => x.user == u.uid && x.workspace == workspaceId) =
          none) →
     (db.invites.filter (inviteKey email workspaceId)).length ≤ 1 →
     ∃ db1 inv,
       sendWorkspaceInvite email userId workspaceId token now ttl db = .ok (db1, inv) ∧
       inv.role = "user" ∧ inv.token = token ∧ inv.expiresAt = now + ttl ∧
       inv.status = (if (db.users.find? (fun x => x.email == email)).isSome
         then "sent" else "pending") ∧
       db1.invites.filter (inviteKey email workspaceId) = [inv]) := by
  constructor
  · intro u m hu hm
    exact send_blocked_badRequest email userId workspaceId token now ttl db u m hu hm
  · intro hclean hone
    refine ⟨_, _, send_success_eq email userId workspaceId token now ttl db hclean,
      rfl, rfl, rfl, rfl, ?_⟩
    have hkey : inviteKey email workspaceId
        ⟨(db.users.find? (fun x => x.email == email)).map UserDoc.uid, email, "user", userId,
         (if (db.users.find? (fun x => x.email == email)).isSome then "sent" else "pending"),
         token, workspaceId, now + ttl⟩ = true := by
      simp [inviteKey]
    simp only [List.filter_append, deleteExistingInvite_eq_eraseP, filter_eraseP_eq_tail,
      tail_eq_nil_of_length_le_one _ hone, List.nil_append, List.filter_cons, hkey,
      if_true, List.filter_nil]

/-- C6 witness: sending to `bob@x.com` on `w1` (user exists, no
membership, one prior invite with token `oldtok`) succeeds and leaves
exactly the fresh `sent` invitation for that (email, workspace). -/
theorem send_invite_contract_amended_witness :
    ∃ db1 inv,
      sendWorkspaceInvite "bob@x.com" "u0" "w1" "tok2" 50 100
          ⟨[⟨"u1", "bob@x.com"⟩], [],
           [⟨some "u1", "bob@x.com", "user", "u9", "sent", "oldtok", "w1", 40⟩]⟩ =
        .ok (db1, inv) ∧
      inv.role = "user" ∧ inv.token = "tok2" ∧ inv.expiresAt = 50 + 100 ∧
      inv.status = "sent" ∧
      db1.invites.filter (inviteKey "bob@x.com" "w1") = [inv] :=
  (send_invite_contract_amended "bob@x.com" "u0" "w1" "tok2" 50 100
    ⟨[⟨"u1", "bob@x.com"⟩], [],
     [⟨some "u1", "bob@x.com", "user", "u9", "sent", "oldtok", "w1", 40⟩]⟩).2
    (fun _ _ => rfl) (by decide)

/-! ### C7 — duplicate role assignment -/

theorem assignRole_duplicate_silent (userId roleId workspaceId : String) (db : RoleDB)
    (ws : WorkspaceDoc) (r0 : RoleDoc) (rest : List RoleDoc) (m : MembershipDoc)
    (hws : db.workspaces.find? (fun w => w.wid == workspaceId) = some ws)
    (hfilter : ws.workspaceRoles.filter (fun r => r.rid == roleId) = r0 :: rest)
    (hm : db.memberships.find?
      (fun x => x.user == userId && x.workspace == workspaceId) = some m)
    (hdup : m.workspaceRoles.contains r0.name = true) :
    assignRoleToUser userId roleId workspaceId db = .ok db := by
  have hfix : ∀ a, db.memberships.find?
      (fun x => x.user == userId && x.workspace == workspaceId) = some a →
      (if a.workspaceRoles.contains r0.name then a
       else { a with workspaceRoles := a.workspaceRoles ++ [r0.name] }) = a := by
    intro a ha
    rw [hm] at ha
    obtain rfl : m = a := Option.some.inj ha
    rw [if_pos hdup]
  unfold assignRoleToUser
  simp only [hws, hfilter, hm]
  rw [updateFirst_eq_of_fix _ _ _ hfix]

theorem divisionAssignRole_duplicate_badRequest
    (roleId userId divisionId workspaceId : String) (db : DivRoleDB)
    (dm : DivMembershipDoc) (d : DivisionDoc) (role : RoleDoc)
    (hdm : db.divMemberships.find? (fun x =>
        x.user == userId && x.workspace == workspaceId && x.division == divisionId) =
      some dm)
    (hd : db.divisions.find? (fun x => x.did == divisionId) = some d)
    (hrole : d.divisionRoles.find? (fun r => r.rid == roleId) = some role)
    (hdup : role.name ∈ dm.divisionRoles) :
    divisionAssignRoleToUser roleId userId divisionId workspaceId db =
      .error .badRequest := by
  have hany : dm.divisionRoles.any (fun r => r == role.name) = true :=
    List.any_eq_true.mpr ⟨role.name, hdup, by simp⟩
  simp [divisionAssignRoleToUser, hdm, hd, hrole, hany]

/-- C7 counterexample: on the *workspace* side, assigning role `manager`
(id `r1`) to `u1`, whose membership already lists `manager`, does not
fail `BadRequest` as the claim states for every tenant: the `$addToSet`
update succeeds silently and the store is byte-for-byte unchanged. -/
theorem workspace_assign_duplicate_counterexample :
    ("manager" ∈ (["manager"] : List String)) ∧
    assignRoleToUser "u1" "r1" "w1"
        ⟨[⟨"w1", [⟨"r1", "manager", []⟩]⟩], [⟨"u1", "w1", ["manager"], "active", none⟩]⟩ =
      .ok ⟨[⟨"w1", [⟨"r1", "manager", []⟩]⟩],
           [⟨"u1", "w1", ["manager"], "active", none⟩]⟩ :=
  ⟨by decide, rfl⟩

/-- C7 (amended): duplicate role assignment is rejected with `BadRequest`
only on the *division* side; the *workspace* side silently succeeds,
absorbing the duplicate through `$addToSet`.  In either outcome the
repeated call leaves the stored role set unchanged (workspace: the
returned store equals the input store; division: the call errors before
any write), so no duplicate is ever introduced by a repeated call. -/
theorem assign_role_duplicate_amended
    (userId roleId workspaceId divisionId : String) (wdb : RoleDB) (ddb : DivRoleDB)
    (ws : WorkspaceDoc) (r0 : RoleDoc) (rest : List RoleDoc) (m : MembershipDoc)
    (dm : DivMembershipDoc) (d : DivisionDoc) (role : RoleDoc)
    (hws : wdb.workspaces.find? (fun w => w.wid == workspaceId) = some ws)
    (hfilter : ws.workspaceRoles.filter (fun r => r.rid == roleId) = r0 :: rest)
    (hm : wdb.memberships.find?
      (fun x => x.user == userId && x.workspace == workspaceId) = some m)
    (hdupw : r0.name ∈ m.workspaceRoles)
    (hdm : ddb.divMemberships.find? (fun x =>
        x.user == userId && x.workspace == workspaceId && x.division == divisionId) =
      some dm)
    (hd : ddb.divisions.find? (fun x => x.did == divisionId) = some d)
    (hrole : d.divisionRoles.find? (fun r => r.rid == roleId) = some role)
    (hdupd : role.name ∈ dm.divisionRoles) :
    assignRoleToUser userId roleId workspaceId wdb = .ok wdb ∧
    divisionAssignRoleToUser roleId userId divisionId workspaceId ddb =
      .error .badRequest :=
  ⟨assignRole_duplicate_silent userId roleId workspaceId wdb ws r0 rest m hws hfilter hm
      (List.elem_iff.mpr hdupw),
   divisionAssignRole_duplicate_badRequest roleId userId divisionId workspaceId ddb
      dm d role hdm hd hrole hdupd⟩

/-- C7 witness: concrete duplicate assignments — workspace role `manager`
silently re-assigned to `u1` (store unchanged), division role
`division_member` duplicate-rejected with `BadRequest`. -/
theorem assign_role_duplicate_amended_witness :
    assignRoleToUser "u1" "r1" "w1"
        ⟨[⟨"w1", [⟨"r1", "manager", []⟩]⟩],
         [⟨"u1", "w1", ["manager"], "active", none⟩]⟩ =
      .ok ⟨[⟨"w1", [⟨"r1", "manager", []⟩]⟩],
           [⟨"u1", "w1", ["manager"], "active", none⟩]⟩ ∧
    divisionAssignRoleToUser "r1" "u1" "d1" "w1"
        ⟨[⟨"d1", "w1", [⟨"r1", "division_member", []⟩]⟩],
         [⟨"u1", "w1", "d1", ["division_member"], "active"⟩]⟩ =
      .error .badRequest :=
  assign_role_duplicate_amended "u1" "r1" "w1" "d1"
    ⟨[⟨"w1", [⟨"r1", "manager", []⟩]⟩], [⟨"u1", "w1", ["manager"], "active", none⟩]⟩
    ⟨[⟨"d1", "w1", [⟨"r1", "division_member", []⟩]⟩],
     [⟨"u1", "w1", "d1", ["division_member"], "active"⟩]⟩
    ⟨"w1", [⟨"r1", "manager", []⟩]⟩ ⟨"r1", "manager", []⟩ []
    ⟨"u1", "w1", ["manager"], "active", none⟩
    ⟨"u1", "w1", "d1", ["division_member"], "active"⟩
    ⟨"d1", "w1", [⟨"r1", "division_member", []⟩]⟩ ⟨"r1", "division_member", []⟩
    rfl rfl rfl (by decide) rfl rfl rfl (by decide)

/-! ### C8 — member removal contract -/

theorem eraseP_find?_none (p : α → Bool) (l : List α) (h : (l.filter p).length ≤ 1) :
    (l.eraseP p).find? p = none := by
  apply List.find?_eq_none.mpr
  intro x hx hpx
  have hnil : (l.eraseP p).filter p = [] := by
    rw [filter_eraseP_eq_tail]
    exact tail_eq_nil_of_length_le_one _ h
  have hmem : x ∈ (l.eraseP p).filter p := List.mem_filter.mpr ⟨hx, hpx⟩
  rw [hnil] at hmem
  exact absurd hmem (List.not_mem_nil x)

/-- C8 counterexample: removing an actor with no membership record fails
with `BadRequest` (`'Member does not exist.'`), not with `NotFound` as
the claim states. -/
theorem remove_member_missing_counterexample :
    removeWorkspaceMember "admin1" "w1" "ghost" [] = .error .badRequest ∧
    ¬ removeWorkspaceMember "admin1" "w1" "ghost" [] = .error .notFound := by
  constructor
  · rfl
  · intro h
    exact absurd (Except.error.inj h) (by decide)

/-- C8 (amended): `removeWorkspaceMember` fails `BadRequest` whenever the
remover equals the target (checked before any lookup — the store is
universally quantified), and fails `BadRequest` — not `NotFound` — when
no membership exists for (target, tenant); on success the first matching
membership record is deleted, and under the at-most-one-membership-per-
pair invariant no record for that pair remains. -/
theorem remove_member_contract_amended (userId workspaceId memberId : String)
    (l : List MembershipDoc) :
    (userId = memberId →
       removeWorkspaceMember userId workspaceId memberId l = .error .badRequest) ∧
    (userId ≠ memberId → l.find? (memberKey workspaceId memberId) = none →
       removeWorkspaceMember userId workspaceId memberId l = .error .badRequest) ∧
    (∀ m, userId ≠ memberId → l.find? (memberKey workspaceId memberId) = some m →
       removeWorkspaceMember userId workspaceId memberId l =
         .ok (l.eraseP (memberKey workspaceId memberId)) ∧
       ((l.filter (memberKey workspaceId memberId)).length ≤ 1 →
         (l.eraseP (memberKey workspaceId memberId)).find?
           (memberKey workspaceId memberId) = none)) := by
  refine ⟨?_, ?_, ?_⟩
  · intro h
    simp [removeWorkspaceMember, h]
  · intro hne hfind
    simp [removeWorkspaceMember, hne, hfind]
  · intro m hne hfind
    exact ⟨by simp [removeWorkspaceMember, hne, hfind],
           fun hone => eraseP_find?_none _ _ hone⟩

/-- C8 witness: removing member `u1` of `w1` by `admin1` deletes the only
membership record, leaving none for the pair. -/
theorem remove_member_contract_amended_witness :
    removeWorkspaceMember "admin1" "w1" "u1"
        [⟨"u1", "w1", ["user"], "active", none⟩] = .ok [] ∧
    (([⟨"u1", "w1", ["user"], "active", none⟩] : List MembershipDoc).eraseP
        (memberKey "w1" "u1")).find? (memberKey "w1" "u1") = none := by
  have h := (remove_member_contract_amended "admin1" "w1" "u1"
    [⟨"u1", "w1", ["user"], "active", none⟩]).2.2
    ⟨"u1", "w1", ["user"], "active", none⟩ (by decide) rfl
  exact ⟨h.1, h.2 (by decide)⟩

/-! ### C10 — the invitation role is hard-coded to `'user'` -/

theorem send_ok_characterization (email userId workspaceId token : String) (now ttl : Int)
    (db db1 : InviteDB) (inv : InviteDoc)
    (h : sendWorkspaceInvite email userId workspaceId token now ttl db = .ok (db1, inv)) :
    inv = ⟨(db.users.find? (fun x => x.email == email)).map UserDoc.uid, email, "user",
           userId,
           (if (db.users.find? (fun x => x.email == email)).isSome then "sent"
            else "pending"),
           token, workspaceId, now + ttl⟩ ∧
    db1 = { users := db.users, memberships := db.memberships,
            invites := deleteExistingInvite email workspaceId db.invites ++ [inv] } := by
  unfold sendWorkspaceInvite at h
  cases hu : db.users.find? (fun x => x.email == email) with
  | none =>
    simp only [hu, Option.map_none', Option.isSome_none, Bool.false_eq_true, if_false,
      Except.ok.injEq, Prod.mk.injEq] at h ⊢
    obtain ⟨hdb, hinv⟩ := h
    subst hdb hinv
    exact ⟨rfl, rfl⟩
  | some u =>
    cases hm : db.memberships.find?
        (fun x => x.user == u.uid && x.workspace == workspaceId) with
    | some m =>
      simp only [hu, hm, Option.isSome_some, if_true] at h
      exact Except.noConfusion h
    | none =>
      simp only [hu, hm, Option.map_some', Option.isSome_some, Option.isSome_none,
        Bool.false_eq_true, if_false, if_true, Except.ok.injEq, Prod.mk.injEq] at h ⊢
      obtain ⟨hdb, hinv⟩ := h
      subst hdb hinv
      exact ⟨rfl, rfl⟩

/-- C10: every invitation produced by `sendWorkspaceInvite` carries the
hard-coded role `'user'` (the validated input has no role field and the
service writes the literal), and accepting such an invitation (under a
fresh token) provisions the new workspace membership with role set
exactly `['user']`. -/
theorem invite_role_hardcoded (email userId workspaceId token : String) (now ttl : Int)
    (db db1 : InviteDB) (inv : InviteDoc) :
    (sendWorkspaceInvite email userId workspaceId token now ttl db = .ok (db1, inv) →
       inv.role = "user") ∧
    (∀ uid2 now2 db2 inv2,
       (∀ i ∈ db.invites, i.token ≠ token) →
       sendWorkspaceInvite email userId workspaceId token now ttl db = .ok (db1, inv) →
       acceptWorkspaceInvite token uid2 now2 db1 = .ok (db2, inv2) →
       db2.memberships = db1.memberships ++
         [⟨uid2, inv.workspace, ["user"], "active", some inv.invitedBy⟩]) := by
  constructor
  · intro h
    obtain ⟨hinv, _⟩ :=
      send_ok_characterization email userId workspaceId token now ttl db db1 inv h
    rw [hinv]
  · intro uid2 now2 db2 inv2 hfresh hsend hacc
    obtain ⟨hinv, hdb1⟩ :=
      send_ok_characterization email userId workspaceId token now ttl db db1 inv hsend
    obtain ⟨inv0, hfind, hinv2, hdb2⟩ :=
      accept_ok_characterization token uid2 now2 db1 db2 inv2 hacc
    have hfind' : db1.invites.find? (fun i => i.token == token) = some inv := by
      simp only [hdb1]
      refine find?_append_singleton _ _ _ ?_ ?_
      · intro x hx
        rw [deleteExistingInvite_eq_eraseP] at hx
        have hxdb : x ∈ db.invites := List.Sublist.subset (List.eraseP_sublist _) hx
        simp [hfresh x hxdb]
      · simp [hinv]
    obtain rfl : inv0 = inv := Option.some.inj (hfind.symm.trans hfind')
    simp only [hdb2]
    simp [hinv, jsDedup_singleton]

/-- C10 witness: the end-to-end pipeline at concrete inputs — the invite
sent to `bob@x.com` carries role `'user'` and its acceptance creates the
membership `(u1, w1)` with role set `['user']`. -/
theorem invite_role_hardcoded_witness :
    (⟨[⟨"u1", "bob@x.com"⟩],
      [⟨"u1", "w1", ["user"], "active", some "u0"⟩],
      [⟨some "u1", "bob@x.com", "user", "u0", "accepted", "tok", "w1", 150⟩]⟩ :
        InviteDB).memberships =
      (⟨[⟨"u1", "bob@x.com"⟩], [],
        [⟨some "u1", "bob@x.com", "user", "u0", "sent", "tok", "w1", 150⟩]⟩ :
          InviteDB).memberships ++
        [⟨"u1", "w1", ["user"], "active", some "u0"⟩] :=
  (invite_role_hardcoded "bob@x.com" "u0" "w1" "tok" 50 100
    ⟨[⟨"u1", "bob@x.com"⟩], [], []⟩
    ⟨[⟨"u1", "bob@x.com"⟩], [],
     [⟨some "u1", "bob@x.com", "user", "u0", "sent", "tok", "w1", 150⟩]⟩
    ⟨some "u1", "bob@x.com", "user", "u0", "sent", "tok", "w1", 150⟩).2
    "u1" 60
    ⟨[⟨"u1", "bob@x.com"⟩],
     [⟨"u1", "w1", ["user"], "active", some "u0"⟩],
     [⟨some "u1", "bob@x.com", "user", "u0", "accepted", "tok", "w1", 150⟩]⟩
    ⟨some "u1", "bob@x.com", "user", "u0", "accepted", "tok", "w1", 150⟩
    (by intro i hi; exact absurd hi (List.not_mem_nil i)) rfl rfl
